import Mathlib

/-!
Verification of the simulation core of an asteroid-shooter game
(Vector2D, PhysicsEngine, EntityManager, GameState, Ship, Asteroid,
Projectile, Game orchestrator).

Modelling conventions for the shallow embedding:
* JavaScript numbers are modelled as exact rationals (`ℚ`).
* `Math.sqrt` is never computed; every comparison of a Euclidean distance
  against a non-negative bound is modelled on squares (`d < r` iff
  `d^2 < r^2` for non-negative `d`, `r`), and the functions that divide by a
  magnitude (`Vector2D.normalize`, `Vector2D.limit`) take the magnitude as an
  extra argument that theorems constrain by `0 ≤ m` and `m * m = magSq v`,
  exactly the characterisation of the value `Math.sqrt` returns.
* `Math.cos`/`Math.sin` of a random or stored angle only ever enter the code
  through `Vector2D.fromAngle(angle, mag)`; such a direction is modelled as an
  explicit unit vector `(cos angle, sin angle) : ℚ × ℚ` supplied as data.
* `Math.random()` streams are modelled as explicit arguments (functions
  `ℕ → ℚ` or record bundles), constrained to `[0,1)` in theorems.
* Ship rotations are stored in units of π radians (every rotation value the
  program manipulates is a rational multiple of π: the initial 0, the respawn
  value `-Math.PI/2`, and increments of `Math.PI * dt/1000`); so the respawn
  rotation `-Math.PI/2` is the rational `-(1/2)`.
* JavaScript string tags (`'large'`, `'playing'`, score sources, …) are
  modelled as closed inductive types.
-/

/-! ## Vector2D (src/lib/Vector2D.js)

`Vector2D` is a mutable pair `{x, y}`; we model it as an immutable pair and
each mutating method as a function returning the new value. -/

/-- Planar vector with rational coordinates, modelling `Vector2D {x, y}`. -/
abbrev Vec2 : Type := ℚ × ℚ

/-- `Vector2D.add`. -/
def vadd (a b : Vec2) : Vec2 := (a.1 + b.1, a.2 + b.2)

/-- `Vector2D.subtract`. -/
def vsub (a b : Vec2) : Vec2 := (a.1 - b.1, a.2 - b.2)

/-- `Vector2D.multiply` (scalar). -/
def vmul (a : Vec2) (s : ℚ) : Vec2 := (a.1 * s, a.2 * s)

/-- `Vector2D.magnitudeSquared`. -/
def magSq (a : Vec2) : ℚ := a.1 * a.1 + a.2 * a.2

/-- `Vector2D.distanceToSquared`: squared Euclidean distance. -/
def distSq (a b : Vec2) : ℚ := (b.1 - a.1) * (b.1 - a.1) + (b.2 - a.2) * (b.2 - a.2)

/-- `Vector2D.normalize`, with the value `m = Math.sqrt(magnitudeSquared)`
passed explicitly (`normalize` divides by the magnitude only when it is
positive). -/
def normalizeW (v : Vec2) (m : ℚ) : Vec2 :=
  if 0 < m then (v.1 / m, v.2 / m) else v

/-- `Vector2D.limit(max)`: clamp the magnitude to `max`; `m` is the magnitude
of `v` (the `Math.sqrt` value used by `normalize` inside `limit`). -/
def limitW (v : Vec2) (mx m : ℚ) : Vec2 :=
  if mx * mx < magSq v then vmul (normalizeW v m) mx else v

/-! ## PhysicsEngine collision detection (src/services/PhysicsEngine.js)

Entities passed to the collision routines expose `id`, `getBounds()`
(= position and radius) and `isActive`; that is exactly the data the
detection code reads, so the embedding carries exactly those fields. -/

/-- Collision-relevant view of a game entity: its `id`, its bounds centre
`(x, y)`, its bounds `radius`, and its `isActive` flag. -/
structure Entity where
  id : ℕ
  x : ℚ
  y : ℚ
  radius : ℚ
  isActive : Bool
deriving DecidableEq

/-- `PhysicsEngine.checkCircleCollision`: squared centre distance strictly
below squared radius sum. -/
def checkCircleCollision (a b : Entity) : Bool :=
  decide (distSq (a.x, a.y) (b.x, b.y) < (a.radius + b.radius) * (a.radius + b.radius))

/-- `PhysicsEngine.getCollisionPoint`: midpoint of the two bounds centres. -/
def getCollisionPoint (a b : Entity) : Vec2 :=
  ((a.x + b.x) / 2, (a.y + b.y) / 2)

/-- `PhysicsEngine.getCollisionNormal`: `(B - A).normalize()`, with the
magnitude `m` of `B - A` passed explicitly (see `normalizeW`). -/
def getCollisionNormalW (a b : Entity) (m : ℚ) : Vec2 :=
  normalizeW (b.x - a.x, b.y - a.y) m

/-- `PhysicsEngine.gridCellSize`. -/
def gridCellSize : ℚ := 100

/-- Grid cell of an entity: `(Math.floor(x / cellSize), Math.floor(y / cellSize))`
(the `"gx,gy"` string key of the source is injective on integer pairs, so the
cell coordinates themselves serve as the key). -/
def cellOf (e : Entity) : ℤ × ℤ :=
  (⌊e.x / gridCellSize⌋, ⌊e.y / gridCellSize⌋)

/-- Contents of grid cell `c` after `populateSpatialGrid entities`: the
entities whose centre lies in that cell, in insertion order. -/
def gridCell (l : List Entity) (c : ℤ × ℤ) : List Entity :=
  l.filter (fun e => decide (cellOf e = c))

/-- The nine cell offsets visited by `getNearbyEntities` (`dx` outer loop
from −1 to 1, `dy` inner loop from −1 to 1). -/
def neighborOffsets : List (ℤ × ℤ) :=
  [(-1, -1), (-1, 0), (-1, 1), (0, -1), (0, 0), (0, 1), (1, -1), (1, 0), (1, 1)]

/-- `PhysicsEngine.getNearbyEntities`: concatenation of the entity's own grid
cell and its 8 neighbours. -/
def getNearbyEntities (l : List Entity) (e : Entity) : List Entity :=
  neighborOffsets.flatMap (fun d => gridCell l ((cellOf e).1 + d.1, (cellOf e).2 + d.2))

/-- The composite key `id_small-id_large` used to deduplicate unordered pairs
in `detectCollisionsSpatial`. -/
def pairKey (i j : ℕ) : ℕ × ℕ :=
  if i < j then (i, j) else (j, i)

/-- The flattened sequence of `(entity, candidate)` checks performed by the
nested loops of `detectCollisionsSpatial` (outer loop over `entities`, inner
loop over `getNearbyEntities`, skipping `entity === candidate`). -/
def spatialCheckSeq (l : List Entity) : List (Entity × Entity) :=
  l.flatMap (fun e =>
    ((getNearbyEntities l e).filter (fun c => decide (¬ c = e))).map (fun c => (e, c)))

/-- The `checkedPairs` scan of `detectCollisionsSpatial`: walk the check
sequence, skip a pair whose key is already in `checked`, otherwise record the
key and push the pair when `checkCircleCollision` holds. -/
def dedupScan : List (Entity × Entity) → List (ℕ × ℕ) → List (Entity × Entity)
  | [], _ => []
  | (a, b) :: rest, checked =>
    let key := pairKey a.id b.id
    if key ∈ checked then dedupScan rest checked
    else if checkCircleCollision a b then (a, b) :: dedupScan rest (key :: checked)
    else dedupScan rest (key :: checked)

/-- `PhysicsEngine.detectCollisionsSpatial` (collision pair list; each record
also stores `getCollisionPoint`/`getCollisionNormal` of its pair, which are
treated by the dedicated theorem for those functions). -/
def detectCollisionsSpatial (l : List Entity) : List (Entity × Entity) :=
  dedupScan (spatialCheckSeq l) []

/-- `PhysicsEngine.detectCollisionsBruteForce`: all index pairs `i < j`. -/
def detectCollisionsBruteForce : List Entity → List (Entity × Entity)
  | [] => []
  | a :: rest =>
    (rest.filter (fun b => checkCircleCollision a b)).map (fun b => (a, b))
      ++ detectCollisionsBruteForce rest

/-- The active-entity filter at the top of `detectCollisions`. -/
def activeEntities (l : List Entity) : List Entity :=
  l.filter (fun e => e.isActive)

/-- `PhysicsEngine.detectCollisions`: filter to active entities, then spatial
grid when more than 10 are active, brute force otherwise. -/
def detectCollisions (l : List Entity) : List (Entity × Entity) :=
  let act := activeEntities l
  if 10 < act.length then detectCollisionsSpatial act else detectCollisionsBruteForce act

/-- An unordered pair `{a, b}` is reported in a collision result list. -/
def reportedIn (res : List (Entity × Entity)) (a b : Entity) : Prop :=
  (a, b) ∈ res ∨ (b, a) ∈ res

instance (res : List (Entity × Entity)) (a b : Entity) : Decidable (reportedIn res a b) := by
  unfold reportedIn; infer_instance

/-! ### Lemmas about the two collision-detection strategies -/

/-- `checkCircleCollision` is symmetric in its two arguments. -/
theorem checkCircleCollision_symm (a b : Entity) :
    checkCircleCollision a b = checkCircleCollision b a := by
  simp only [checkCircleCollision, distSq, decide_eq_decide]
  constructor <;> intro h <;> nlinarith [h]

/-- Every pair reported by the brute-force strategy consists of two list
members that collide. -/
theorem mem_detectCollisionsBruteForce {l : List Entity} {x : Entity × Entity}
    (h : x ∈ detectCollisionsBruteForce l) :
    x.1 ∈ l ∧ x.2 ∈ l ∧ checkCircleCollision x.1 x.2 = true := by
  induction l with
  | nil => simp [detectCollisionsBruteForce] at h
  | cons a rest ih =>
    simp only [detectCollisionsBruteForce, List.mem_append, List.mem_map,
      List.mem_filter] at h
    rcases h with ⟨b, ⟨hb, hc⟩, rfl⟩ | h
    · exact ⟨List.mem_cons_self a rest, List.mem_cons_of_mem a hb, hc⟩
    · obtain ⟨h1, h2, h3⟩ := ih h
      exact ⟨List.mem_cons_of_mem a h1, List.mem_cons_of_mem a h2, h3⟩

/-- Characterisation of the unordered pairs reported by the brute-force
strategy on a duplicate-free list. -/
theorem brute_reported_iff {l : List Entity} (hnd : l.Nodup)
    {a b : Entity} (ha : a ∈ l) (hb : b ∈ l) (hab : a ≠ b) :
    reportedIn (detectCollisionsBruteForce l) a b ↔ checkCircleCollision a b = true := by
  induction l with
  | nil => cases ha
  | cons e rest ih =>
    obtain ⟨hend, hrestnd⟩ := List.nodup_cons.mp hnd
    have hmem : ∀ {u v : Entity} {c : Entity},
        ((u, v) = (e, c)) → u = e ∧ v = c := by
      intro u v c h
      exact ⟨congrArg Prod.fst h, congrArg Prod.snd h⟩
    rcases List.mem_cons.mp ha with rfl | ha' <;> rcases List.mem_cons.mp hb with rfl | hb'
    · exact absurd rfl hab
    · -- a is the head, b is in the tail
      constructor
      · rintro (h | h)
        · rcases List.mem_append.mp h with h | h
          · obtain ⟨c, hc, hcEq⟩ := List.mem_map.mp h
            obtain ⟨-, h2⟩ := hmem hcEq.symm
            exact h2 ▸ (List.mem_filter.mp hc).2
          · exact absurd (mem_detectCollisionsBruteForce h).1 hend
        · rcases List.mem_append.mp h with h | h
          · obtain ⟨c, hc, hcEq⟩ := List.mem_map.mp h
            obtain ⟨h1, -⟩ := hmem hcEq.symm
            exact absurd h1.symm hab
          · exact absurd (mem_detectCollisionsBruteForce h).2.1 hend
      · intro hcol
        exact Or.inl (List.mem_append.mpr (Or.inl
          (List.mem_map.mpr ⟨b, List.mem_filter.mpr ⟨hb', hcol⟩, rfl⟩)))
    · -- b is the head, a is in the tail
      constructor
      · rintro (h | h)
        · rcases List.mem_append.mp h with h | h
          · obtain ⟨c, hc, hcEq⟩ := List.mem_map.mp h
            obtain ⟨h1, -⟩ := hmem hcEq.symm
            exact absurd h1 hab
          · exact absurd (mem_detectCollisionsBruteForce h).2.1 hend
        · rcases List.mem_append.mp h with h | h
          · obtain ⟨c, hc, hcEq⟩ := List.mem_map.mp h
            obtain ⟨-, h2⟩ := hmem hcEq.symm
            exact (checkCircleCollision_symm a b) ▸ (h2 ▸ (List.mem_filter.mp hc).2)
          · exact absurd (mem_detectCollisionsBruteForce h).1 hend
      · intro hcol
        exact Or.inr (List.mem_append.mpr (Or.inl
          (List.mem_map.mpr ⟨a, List.mem_filter.mpr ⟨ha',
            (checkCircleCollision_symm a b) ▸ hcol⟩, rfl⟩)))
    · -- both in the tail
      have hstep : reportedIn (detectCollisionsBruteForce (e :: rest)) a b ↔
          reportedIn (detectCollisionsBruteForce rest) a b := by
        constructor
        · rintro (h | h)
          · rcases List.mem_append.mp h with h | h
            · obtain ⟨c, hc, hcEq⟩ := List.mem_map.mp h
              obtain ⟨h1, -⟩ := hmem hcEq.symm
              exact absurd (h1 ▸ ha') hend
            · exact Or.inl h
          · rcases List.mem_append.mp h with h | h
            · obtain ⟨c, hc, hcEq⟩ := List.mem_map.mp h
              obtain ⟨h1, -⟩ := hmem hcEq.symm
              exact absurd (h1 ▸ hb') hend
            · exact Or.inr h
        · rintro (h | h)
          · exact Or.inl (List.mem_append.mpr (Or.inr h))
          · exact Or.inr (List.mem_append.mpr (Or.inr h))
      rw [hstep]
      exact ih hrestnd ha' hb'

/-- Two entities occupy the same or adjacent (Chebyshev distance ≤ 1) grid
cells; this is the candidate relation realised by `getNearbyEntities`. -/
def cellAdj (a b : Entity) : Prop :=
  ((cellOf b).1 - (cellOf a).1).natAbs ≤ 1 ∧ ((cellOf b).2 - (cellOf a).2).natAbs ≤ 1

instance (a b : Entity) : Decidable (cellAdj a b) := by
  unfold cellAdj; infer_instance

/-- Membership in the nine-cell neighbour offset list is exactly a Chebyshev
bound of 1 on both coordinates. -/
theorem mem_neighborOffsets (d : ℤ × ℤ) :
    d ∈ neighborOffsets ↔ (-1 ≤ d.1 ∧ d.1 ≤ 1 ∧ -1 ≤ d.2 ∧ d.2 ≤ 1) := by
  obtain ⟨d1, d2⟩ := d
  simp only [neighborOffsets, List.mem_cons, List.not_mem_nil, or_false, Prod.mk.injEq]
  omega

/-- `getNearbyEntities` returns exactly the list members in the entity's own
cell or one of the 8 neighbouring cells. -/
theorem mem_getNearbyEntities {l : List Entity} {e c : Entity} :
    c ∈ getNearbyEntities l e ↔ c ∈ l ∧ cellAdj e c := by
  unfold getNearbyEntities gridCell
  simp only [List.mem_flatMap, List.mem_filter, decide_eq_true_eq]
  constructor
  · rintro ⟨d, hd, hcl, hcell⟩
    obtain ⟨hd1, hd2, hd3, hd4⟩ := (mem_neighborOffsets d).mp hd
    have h1 : (cellOf c).1 = (cellOf e).1 + d.1 := congrArg Prod.fst hcell
    have h2 : (cellOf c).2 = (cellOf e).2 + d.2 := congrArg Prod.snd hcell
    exact ⟨hcl, by unfold cellAdj; omega⟩
  · rintro ⟨hcl, hadj1, hadj2⟩
    refine ⟨((cellOf c).1 - (cellOf e).1, (cellOf c).2 - (cellOf e).2),
      (mem_neighborOffsets _).mpr (by constructor <;> omega), hcl, ?_⟩
    have h1 : (cellOf e).1 + ((cellOf c).1 - (cellOf e).1) = (cellOf c).1 := by ring
    have h2 : (cellOf e).2 + ((cellOf c).2 - (cellOf e).2) = (cellOf c).2 := by ring
    exact Prod.ext (by rw [h1]) (by rw [h2]) |>.symm

/-- The adjacency relation on grid cells is symmetric. -/
theorem cellAdj_symm {a b : Entity} (h : cellAdj a b) : cellAdj b a := by
  unfold cellAdj at h ⊢; omega

/-- Membership in the flattened check sequence of the spatial strategy. -/
theorem mem_spatialCheckSeq {l : List Entity} {x : Entity × Entity} :
    x ∈ spatialCheckSeq l ↔ x.1 ∈ l ∧ x.2 ∈ l ∧ x.2 ≠ x.1 ∧ cellAdj x.1 x.2 := by
  obtain ⟨a, b⟩ := x
  unfold spatialCheckSeq
  simp only [List.mem_flatMap, List.mem_map, List.mem_filter, decide_eq_true_eq,
    Prod.mk.injEq]
  constructor
  · rintro ⟨e, he, c, ⟨hcn, hcne⟩, rfl, rfl⟩
    obtain ⟨hcl, hadj⟩ := mem_getNearbyEntities.mp hcn
    exact ⟨he, hcl, hcne, hadj⟩
  · rintro ⟨ha, hb, hne, hadj⟩
    exact ⟨a, ha, b, ⟨mem_getNearbyEntities.mpr ⟨hb, hadj⟩, hne⟩, rfl, rfl⟩

/-- Every pair the `checkedPairs` scan outputs comes from the check sequence
and collides. -/
theorem dedupScan_sound :
    ∀ (cs : List (Entity × Entity)) (checked : List (ℕ × ℕ)) {x : Entity × Entity},
      x ∈ dedupScan cs checked → x ∈ cs ∧ checkCircleCollision x.1 x.2 = true := by
  intro cs
  induction cs with
  | nil => intro checked x h; simp [dedupScan] at h
  | cons hd tl ih =>
    obtain ⟨a, b⟩ := hd
    intro checked x h
    rw [dedupScan] at h
    by_cases h1 : pairKey a.id b.id ∈ checked
    · rw [if_pos h1] at h
      obtain ⟨h2, h3⟩ := ih checked h
      exact ⟨List.mem_cons_of_mem _ h2, h3⟩
    · rw [if_neg h1] at h
      by_cases h2 : checkCircleCollision a b = true
      · rw [if_pos h2] at h
        rcases List.mem_cons.mp h with rfl | h
        · exact ⟨List.mem_cons_self _ _, h2⟩
        · obtain ⟨h3, h4⟩ := ih _ h
          exact ⟨List.mem_cons_of_mem _ h3, h4⟩
      · rw [if_neg h2] at h
        obtain ⟨h3, h4⟩ := ih _ h
        exact ⟨List.mem_cons_of_mem _ h3, h4⟩

/-- If the check sequence contains a colliding pair with key `k`, `k` has not
yet been checked, and every pair with key `k` in the sequence collides, then
the scan outputs some pair with key `k`. -/
theorem dedupScan_complete :
    ∀ (cs : List (Entity × Entity)) (checked : List (ℕ × ℕ)) (k : ℕ × ℕ),
      (∃ c ∈ cs, pairKey c.1.id c.2.id = k ∧ checkCircleCollision c.1 c.2 = true) →
      k ∉ checked →
      (∀ c ∈ cs, pairKey c.1.id c.2.id = k → checkCircleCollision c.1 c.2 = true) →
      ∃ x ∈ dedupScan cs checked, pairKey x.1.id x.2.id = k := by
  intro cs
  induction cs with
  | nil => rintro checked k ⟨c, hc, -, -⟩ - -; cases hc
  | cons hd tl ih =>
    obtain ⟨a, b⟩ := hd
    rintro checked k ⟨c, hc, hck, hccol⟩ hkc hall
    by_cases hmem : pairKey a.id b.id ∈ checked
    · rw [dedupScan, if_pos hmem]
      rcases List.mem_cons.mp hc with rfl | hc'
      · exact absurd (hck ▸ hmem) hkc
      · exact ih checked k ⟨c, hc', hck, hccol⟩ hkc
          (fun c' h' => hall c' (List.mem_cons_of_mem _ h'))
    · by_cases hcol : checkCircleCollision a b = true
      · rw [dedupScan, if_neg hmem, if_pos hcol]
        by_cases hk : pairKey a.id b.id = k
        · exact ⟨(a, b), List.mem_cons_self _ _, hk⟩
        · rcases List.mem_cons.mp hc with rfl | hc'
          · exact absurd hck hk
          · obtain ⟨x, hx, hxk⟩ := ih (pairKey a.id b.id :: checked) k
              ⟨c, hc', hck, hccol⟩
              (by intro hmm; rcases List.mem_cons.mp hmm with h | h
                  · exact hk h.symm
                  · exact hkc h)
              (fun c' h' => hall c' (List.mem_cons_of_mem _ h'))
            exact ⟨x, List.mem_cons_of_mem _ hx, hxk⟩
      · rw [dedupScan, if_neg hmem, if_neg hcol]
        have hk : pairKey a.id b.id ≠ k := by
          intro h
          exact hcol (hall (a, b) (List.mem_cons_self _ _) h)
        rcases List.mem_cons.mp hc with rfl | hc'
        · exact absurd hck hk
        · exact ih _ k ⟨c, hc', hck, hccol⟩
            (by intro hmm; rcases List.mem_cons.mp hmm with h | h
                · exact hk h.symm
                · exact hkc h)
            (fun c' h' => hall c' (List.mem_cons_of_mem _ h'))

/-- `pairKey` determines the unordered pair of identifiers. -/
theorem pairKey_inj {i j u v : ℕ} (h : pairKey i j = pairKey u v) :
    (i = u ∧ j = v) ∨ (i = v ∧ j = u) := by
  unfold pairKey at h
  split_ifs at h <;>
    simp only [Prod.mk.injEq] at h <;> omega

/-- Characterisation of the unordered pairs reported by the spatial-grid
strategy on a list with duplicate-free identifiers: a pair is reported exactly
when it collides and occupies adjacent grid cells. -/
theorem spatial_reported_iff {l : List Entity} (hN : (l.map Entity.id).Nodup)
    {a b : Entity} (ha : a ∈ l) (hb : b ∈ l) (hab : a ≠ b) :
    reportedIn (detectCollisionsSpatial l) a b ↔
      (checkCircleCollision a b = true ∧ cellAdj a b) := by
  have hinj : ∀ x ∈ l, ∀ y ∈ l, Entity.id x = Entity.id y → x = y :=
    fun x hx y hy => List.inj_on_of_nodup_map hN hx hy
  constructor
  · rintro (h | h)
    · obtain ⟨hseq, hcol⟩ := dedupScan_sound _ _ h
      obtain ⟨-, -, -, hadj⟩ := mem_spatialCheckSeq.mp hseq
      exact ⟨hcol, hadj⟩
    · obtain ⟨hseq, hcol⟩ := dedupScan_sound _ _ h
      obtain ⟨-, -, -, hadj⟩ := mem_spatialCheckSeq.mp hseq
      exact ⟨(checkCircleCollision_symm a b).trans hcol, cellAdj_symm hadj⟩
  · rintro ⟨hcol, hadj⟩
    have hex : ∃ c ∈ spatialCheckSeq l,
        pairKey c.1.id c.2.id = pairKey a.id b.id ∧
        checkCircleCollision c.1 c.2 = true :=
      ⟨(a, b), mem_spatialCheckSeq.mpr ⟨ha, hb, Ne.symm hab, hadj⟩, rfl, hcol⟩
    have hall : ∀ c ∈ spatialCheckSeq l,
        pairKey c.1.id c.2.id = pairKey a.id b.id →
        checkCircleCollision c.1 c.2 = true := by
      intro c hc hck
      obtain ⟨hc1, hc2, -, -⟩ := mem_spatialCheckSeq.mp hc
      rcases pairKey_inj hck with ⟨h1, h2⟩ | ⟨h1, h2⟩
      · rw [hinj _ hc1 _ ha h1, hinj _ hc2 _ hb h2]
        exact hcol
      · rw [hinj _ hc1 _ hb h1, hinj _ hc2 _ ha h2, ← checkCircleCollision_symm]
        exact hcol
    obtain ⟨x, hx, hxk⟩ :=
      dedupScan_complete _ [] (pairKey a.id b.id) hex (List.not_mem_nil _) hall
    obtain ⟨hxseq, -⟩ := dedupScan_sound _ _ hx
    obtain ⟨hx1, hx2, -, -⟩ := mem_spatialCheckSeq.mp hxseq
    rcases pairKey_inj hxk with ⟨h1, h2⟩ | ⟨h1, h2⟩
    · left
      have : x = (a, b) := Prod.ext (hinj _ hx1 _ ha h1) (hinj _ hx2 _ hb h2)
      exact this ▸ hx
    · right
      have : x = (b, a) := Prod.ext (hinj _ hx1 _ hb h1) (hinj _ hx2 _ ha h2)
      exact this ▸ hx

/-- Rationals whose difference is below 100 land in the same or adjacent
multiples-of-100 floor buckets. -/
theorem floor_bucket_adj {u v : ℚ} (h : |u - v| < 100) :
    (⌊u / 100⌋ - ⌊v / 100⌋).natAbs ≤ 1 := by
  obtain ⟨hl, hr⟩ := abs_lt.mp h
  have f1 : ⌊u / 100⌋ ≤ ⌊v / 100⌋ + 1 := by
    have hq : u / 100 ≤ v / 100 + 1 := by
      have : u / 100 - v / 100 = (u - v) / 100 := by ring
      nlinarith [this]
    calc ⌊u / 100⌋ ≤ ⌊v / 100 + 1⌋ := Int.floor_le_floor hq
    _ = ⌊v / 100⌋ + 1 := Int.floor_add_one _
  have f2 : ⌊v / 100⌋ ≤ ⌊u / 100⌋ + 1 := by
    have hq : v / 100 ≤ u / 100 + 1 := by
      have : v / 100 - u / 100 = (v - u) / 100 := by ring
      nlinarith [this]
    calc ⌊v / 100⌋ ≤ ⌊u / 100 + 1⌋ := Int.floor_le_floor hq
    _ = ⌊u / 100⌋ + 1 := Int.floor_add_one _
  omega

/-- When both radii lie in `[0, 50]` (so the radius sum is at most the grid
cell size 100), colliding entities occupy adjacent grid cells. -/
theorem collide_cellAdj {a b : Entity} (h : checkCircleCollision a b = true)
    (hra : 0 ≤ a.radius) (hra' : a.radius ≤ 50)
    (hrb : 0 ≤ b.radius) (hrb' : b.radius ≤ 50) :
    cellAdj a b := by
  have hlt : distSq (a.x, a.y) (b.x, b.y) <
      (a.radius + b.radius) * (a.radius + b.radius) := by
    simpa [checkCircleCollision] using h
  unfold distSq at hlt
  have hx2 : (b.x - a.x) ^ 2 < 100 ^ 2 := by nlinarith [sq_nonneg (b.y - a.y)]
  have hy2 : (b.y - a.y) ^ 2 < 100 ^ 2 := by nlinarith [sq_nonneg (b.x - a.x)]
  have hx : |b.x - a.x| < 100 := abs_lt_of_sq_lt_sq hx2 (by norm_num)
  have hy : |b.y - a.y| < 100 := abs_lt_of_sq_lt_sq hy2 (by norm_num)
  unfold cellAdj cellOf gridCellSize
  exact ⟨floor_bucket_adj hx, floor_bucket_adj hy⟩

/-- C1 (amended): `detectCollisions` filters to active entities and dispatches
on the active count (brute force for at most 10, spatial grid above 10), and —
provided entity identifiers are distinct and every radius lies in `[0, 50]`
(so that each colliding pair's radius sum is at most the grid cell size 100,
as holds for every entity the game creates) — the brute-force and spatial-grid
strategies report exactly the same set of unordered colliding pairs; the
dispatch therefore never changes the reported pair set.  For arbitrary radii
the equivalence fails (see the counterexample). -/
theorem collision_strategy_equivalence (l : List Entity)
    (hN : (l.map Entity.id).Nodup)
    (hR : ∀ e ∈ l, 0 ≤ e.radius ∧ e.radius ≤ 50) :
    (∀ a b : Entity, a ≠ b →
      (reportedIn (detectCollisionsBruteForce (activeEntities l)) a b ↔
        reportedIn (detectCollisionsSpatial (activeEntities l)) a b)) ∧
    (∀ a b : Entity, a ≠ b →
      (reportedIn (detectCollisions l) a b ↔
        reportedIn (detectCollisionsBruteForce (activeEntities l)) a b)) := by
  have hsub : List.Sublist (activeEntities l) l := List.filter_sublist l
  have hNa : ((activeEntities l).map Entity.id).Nodup :=
    List.Nodup.sublist (List.Sublist.map Entity.id hsub) hN
  have hRa : ∀ e ∈ activeEntities l, 0 ≤ e.radius ∧ e.radius ≤ 50 :=
    fun e he => hR e (hsub.subset he)
  have main : ∀ a b : Entity, a ≠ b →
      (reportedIn (detectCollisionsBruteForce (activeEntities l)) a b ↔
        reportedIn (detectCollisionsSpatial (activeEntities l)) a b) := by
    intro a b hab
    by_cases ha : a ∈ activeEntities l
    · by_cases hb : b ∈ activeEntities l
      · rw [brute_reported_iff (hNa.of_map _) ha hb hab,
          spatial_reported_iff hNa ha hb hab]
        constructor
        · intro h
          exact ⟨h, collide_cellAdj h (hRa a ha).1 (hRa a ha).2 (hRa b hb).1 (hRa b hb).2⟩
        · exact And.left
      · constructor
        · rintro (h | h)
          · exact absurd (mem_detectCollisionsBruteForce h).2.1 hb
          · exact absurd (mem_detectCollisionsBruteForce h).1 hb
        · rintro (h | h)
          · obtain ⟨hs, -⟩ := dedupScan_sound _ _ h
            exact absurd (mem_spatialCheckSeq.mp hs).2.1 hb
          · obtain ⟨hs, -⟩ := dedupScan_sound _ _ h
            exact absurd (mem_spatialCheckSeq.mp hs).1 hb
    · constructor
      · rintro (h | h)
        · exact absurd (mem_detectCollisionsBruteForce h).1 ha
        · exact absurd (mem_detectCollisionsBruteForce h).2.1 ha
      · rintro (h | h)
        · obtain ⟨hs, -⟩ := dedupScan_sound _ _ h
          exact absurd (mem_spatialCheckSeq.mp hs).1 ha
        · obtain ⟨hs, -⟩ := dedupScan_sound _ _ h
          exact absurd (mem_spatialCheckSeq.mp hs).2.1 ha
  refine ⟨main, ?_⟩
  intro a b hab
  unfold detectCollisions
  by_cases hlen : 10 < (activeEntities l).length
  · rw [if_pos hlen]
    exact (main a b hab).symm
  · rw [if_neg hlen]

/-- First entity of the C1 counterexample: radius 300 at the origin. -/
def ceBig1 : Entity := ⟨1, 0, 0, 300, true⟩

/-- Second entity of the C1 counterexample: radius 300 at `(500, 0)`. -/
def ceBig2 : Entity := ⟨2, 500, 0, 300, true⟩

/-- C1 counterexample: with arbitrary radii the two strategies disagree — the
entities at distance 500 with radius sum 600 collide, and brute force reports
the pair, but their grid cells `(0,0)` and `(5,0)` are not adjacent, so the
spatial strategy misses it. -/
theorem collision_strategy_counterexample :
    reportedIn (detectCollisionsBruteForce [ceBig1, ceBig2]) ceBig1 ceBig2 ∧
      ¬ reportedIn (detectCollisionsSpatial [ceBig1, ceBig2]) ceBig1 ceBig2 := by
  have hcell1 : cellOf ceBig1 = (0, 0) := by
    norm_num [cellOf, ceBig1, gridCellSize]
  have hcell2 : cellOf ceBig2 = (5, 0) := by
    norm_num [cellOf, ceBig2, gridCellSize]
  constructor
  · norm_num [reportedIn, detectCollisionsBruteForce, checkCircleCollision, distSq,
      ceBig1, ceBig2]
  · rintro (h | h)
    · obtain ⟨hs, -⟩ := dedupScan_sound _ _ h
      have hadj := (mem_spatialCheckSeq.mp hs).2.2.2
      rw [cellAdj, hcell1, hcell2] at hadj
      norm_num at hadj
    · obtain ⟨hs, -⟩ := dedupScan_sound _ _ h
      have hadj := (mem_spatialCheckSeq.mp hs).2.2.2
      rw [cellAdj, hcell1, hcell2] at hadj
      norm_num at hadj

/-- Concrete list instantiating the C1 theorem's hypotheses. -/
def c1wList : List Entity := [⟨1, 0, 0, 10, true⟩, ⟨2, 5, 5, 10, true⟩, ⟨3, 400, 300, 10, false⟩]

/-- First entity of the witness list. -/
def c1wA : Entity := ⟨1, 0, 0, 10, true⟩

/-- Second entity of the witness list. -/
def c1wB : Entity := ⟨2, 5, 5, 10, true⟩

/-- Witness: the C1 theorem applied at a concrete entity list. -/
theorem collision_strategy_equivalence_witness :
    reportedIn (detectCollisionsSpatial (activeEntities c1wList)) c1wA c1wB := by
  have h := (collision_strategy_equivalence c1wList (by decide)
    (by norm_num [c1wList])).1 c1wA c1wB (by norm_num [c1wA, c1wB])
  refine h.mp ?_
  norm_num [reportedIn, activeEntities, c1wList, detectCollisionsBruteForce,
    checkCircleCollision, distSq, c1wA, c1wB]

/-- C7: `checkCircleCollision` holds iff the squared distance between bounds
centres is strictly below the squared radius sum; the contact point is the
midpoint of the centres; and the normal (with `m` the magnitude of `B − A`,
i.e. `0 ≤ m` and `m * m = distSq A B`) is the zero vector when the centres
coincide and otherwise a unit vector pointing from A toward B (`m` times the
normal recovers `B − A`). -/
theorem circle_collision_spec (a b : Entity) (m : ℚ)
    (hm0 : 0 ≤ m) (hm : m * m = distSq (a.x, a.y) (b.x, b.y)) :
    (checkCircleCollision a b = true ↔
      distSq (a.x, a.y) (b.x, b.y) < (a.radius + b.radius) * (a.radius + b.radius)) ∧
    getCollisionPoint a b = ((a.x + b.x) / 2, (a.y + b.y) / 2) ∧
    (m = 0 → getCollisionNormalW a b m = (0, 0)) ∧
    (0 < m → magSq (getCollisionNormalW a b m) = 1 ∧
      vmul (getCollisionNormalW a b m) m = (b.x - a.x, b.y - a.y)) := by
  refine ⟨by simp [checkCircleCollision], rfl, ?_, ?_⟩
  · intro hz
    subst hz
    rw [distSq] at hm
    have hx : b.x - a.x = 0 := by nlinarith [sq_nonneg (b.x - a.x), sq_nonneg (b.y - a.y)]
    have hy : b.y - a.y = 0 := by nlinarith [sq_nonneg (b.x - a.x), sq_nonneg (b.y - a.y)]
    simp [getCollisionNormalW, normalizeW, hx, hy]
  · intro hpos
    have hne : m ≠ 0 := ne_of_gt hpos
    rw [distSq] at hm
    constructor
    · rw [getCollisionNormalW, normalizeW, if_pos hpos, magSq]
      field_simp
      nlinarith [hm]
    · rw [getCollisionNormalW, normalizeW, if_pos hpos, vmul]
      field_simp

/-- Witness for the C7 theorem: centres `(0,0)` and `(3,4)` at distance 5. -/
theorem circle_collision_spec_witness :
    magSq (getCollisionNormalW ⟨1, 0, 0, 3, true⟩ ⟨2, 3, 4, 5, true⟩ 5) = 1 := by
  have h := circle_collision_spec ⟨1, 0, 0, 3, true⟩ ⟨2, 3, 4, 5, true⟩ 5
    (by norm_num) (by norm_num [distSq])
  exact (h.2.2.2 (by norm_num)).1

/-! ## GameState (src/services/GameState.js)

Score/lives/level/difficulty/phase state machine.  String tags are modelled
as closed inductive types; `Date.now()` reads are threaded in as explicit
`now` arguments. -/

/-- Difficulty tag: `'easy' | 'medium' | 'hard'`. -/
inductive Difficulty
  | easy
  | medium
  | hard
deriving DecidableEq

/-- Game phase tag: `'menu' | 'playing' | 'paused' | 'gameOver'`. -/
inductive GamePhase
  | menu
  | playing
  | paused
  | gameOver
deriving DecidableEq

/-- One row of `GameState.difficultySettings`. -/
structure DiffSettings where
  initialLives : ℤ
  baseAsteroidCount : ℕ
  asteroidSpeedMultiplier : ℚ
  extraLifeThreshold : ℚ
deriving DecidableEq

/-- The fixed `difficultySettings` table. -/
def difficultySettings : Difficulty → DiffSettings
  | .easy => ⟨5, 3, 8 / 10, 8000⟩
  | .medium => ⟨3, 5, 1, 10000⟩
  | .hard => ⟨1, 8, 13 / 10, 15000⟩

/-- The `source` string passed to `addScore` (only its use matters: the
`source.includes('asteroid')` statistics check). -/
inductive ScoreSource
  | levelBonusSrc
  | asteroidLargeSrc
  | asteroidMediumSrc
  | asteroidSmallSrc
  | unknownSrc
deriving DecidableEq

/-- Models `source.includes('asteroid')`: true exactly for the
`asteroid-large` / `asteroid-medium` / `asteroid-small` source strings the
program passes. -/
def sourceMentionsAsteroid : ScoreSource → Bool
  | .asteroidLargeSrc => true
  | .asteroidMediumSrc => true
  | .asteroidSmallSrc => true
  | _ => false

/-- Mutable state of `GameState` (fields that the modelled operations read or
write). -/
structure GameState where
  score : ℚ
  lives : ℤ
  level : ℕ
  difficulty : Difficulty
  gamePhase : GamePhase
  isPaused : Bool
  isGameOver : Bool
  lastExtraLifeScore : ℚ
  asteroidsDestroyed : ℕ
  shotsFired : ℕ
  shotsHit : ℕ
  totalGameTime : ℚ
  levelStartTime : ℚ
  gameStartTime : ℚ
deriving DecidableEq

/-- `GameState.addScore(points, source)`: accumulate score, grant one extra
life when the floor bucket of `score / extraLifeThreshold` strictly exceeds
the bucket of `lastExtraLifeScore / extraLifeThreshold` (recording the new
score in `lastExtraLifeScore`), and bump the hit statistic for asteroid
sources.  Returns the updated state and the `extraLifeEarned` flag. -/
def GameState.addScore (gs : GameState) (points : ℚ) (src : ScoreSource) :
    GameState × Bool :=
  let newScore := gs.score + points
  let threshold := (difficultySettings gs.difficulty).extraLifeThreshold
  let earned : Bool := decide (⌊gs.lastExtraLifeScore / threshold⌋ < ⌊newScore / threshold⌋)
  let gs1 := { gs with score := newScore }
  let gs2 := if earned then
      { gs1 with lives := gs1.lives + 1, lastExtraLifeScore := newScore }
    else gs1
  let gs3 := if sourceMentionsAsteroid src then
      { gs2 with shotsHit := gs2.shotsHit + 1 }
    else gs2
  (gs3, earned)

/-- C4: for every `addScore` call with non-negative points, crossing exactly
one extra-life bucket (the floor of `score / threshold` after the addition
exceeds the floor of `lastExtraLifeScore / threshold` by exactly one) grants
exactly one life; crossing none grants none; and no call decreases lives or
level (the level is untouched). -/
theorem addScore_extra_life_spec (gs : GameState) (points : ℚ) (src : ScoreSource)
    (hpts : 0 ≤ points) :
    ((⌊(gs.score + points) / (difficultySettings gs.difficulty).extraLifeThreshold⌋ =
        ⌊gs.lastExtraLifeScore / (difficultySettings gs.difficulty).extraLifeThreshold⌋ + 1 →
      (gs.addScore points src).1.lives = gs.lives + 1) ∧
     (⌊(gs.score + points) / (difficultySettings gs.difficulty).extraLifeThreshold⌋ =
        ⌊gs.lastExtraLifeScore / (difficultySettings gs.difficulty).extraLifeThreshold⌋ →
      (gs.addScore points src).1.lives = gs.lives)) ∧
    gs.lives ≤ (gs.addScore points src).1.lives ∧
    (gs.addScore points src).1.level = gs.level := by
  by_cases hearn :
      ⌊gs.lastExtraLifeScore / (difficultySettings gs.difficulty).extraLifeThreshold⌋ <
        ⌊(gs.score + points) / (difficultySettings gs.difficulty).extraLifeThreshold⌋ <;>
    by_cases hsrc : sourceMentionsAsteroid src = true <;>
      simp [GameState.addScore, hearn, hsrc] <;>
      omega

/-- Witness for C4 at a concrete state: score 9900 plus 200 points crosses
the 10000 threshold once on medium difficulty and grants one life. -/
theorem addScore_extra_life_spec_witness :
    (GameState.addScore
        ⟨9900, 3, 1, .medium, .playing, false, false, 9900, 0, 0, 0, 0, 0, 0⟩
        200 .asteroidSmallSrc).1.lives = 4 := by
  have h := addScore_extra_life_spec
    ⟨9900, 3, 1, .medium, .playing, false, false, 9900, 0, 0, 0, 0, 0, 0⟩
    200 .asteroidSmallSrc (by norm_num)
  have h1 := h.1.1 (by norm_num [difficultySettings])
  rw [h1]
  norm_num

/-- `GameState.loseLife()`: decrement lives; at zero or below, end the game
(`endGame` records the total session time from the `Date.now()` value passed
as `now`).  Returns the updated state and the `gameOver` flag. -/
def GameState.loseLife (gs : GameState) (now : ℚ) : GameState × Bool :=
  let gs1 := { gs with lives := gs.lives - 1 }
  if gs1.lives ≤ 0 then
    ({ gs1 with isGameOver := true, gamePhase := .gameOver,
                totalGameTime := now - gs1.gameStartTime }, true)
  else (gs1, false)

/-- `GameState.pause()`: only from the `playing` phase while not paused. -/
def GameState.pause (gs : GameState) : GameState × Bool :=
  if gs.gamePhase = GamePhase.playing ∧ gs.isPaused = false then
    ({ gs with isPaused := true }, true)
  else (gs, false)

/-- `GameState.resume()`: only from the `playing` phase while paused. -/
def GameState.resume (gs : GameState) : GameState × Bool :=
  if gs.gamePhase = GamePhase.playing ∧ gs.isPaused = true then
    ({ gs with isPaused := false }, true)
  else (gs, false)

/-- `GameState.awardLevelBonus()`: flat 500-point `level-bonus` score. -/
def GameState.awardLevelBonus (gs : GameState) : GameState :=
  (gs.addScore 500 .levelBonusSrc).1

/-- `GameState.advanceLevel()` (level increment; `now` models the
`Date.now()` stored into `levelStartTime`). -/
def GameState.advanceLevel (gs : GameState) (now : ℚ) : GameState :=
  { gs with level := gs.level + 1, levelStartTime := now, asteroidsDestroyed := 0 }

/-- `GameState.completeLevel()`: bonus then level increment. -/
def GameState.completeLevel (gs : GameState) (now : ℚ) : GameState :=
  (gs.awardLevelBonus).advanceLevel now

/-- `GameState.getAsteroidCountForLevel()`:
`baseAsteroidCount + Math.floor((level - 1) / 3)` (natural-number division is
floor division; `level ≥ 1` throughout the program). -/
def GameState.getAsteroidCountForLevel (gs : GameState) : ℕ :=
  (difficultySettings gs.difficulty).baseAsteroidCount + (gs.level - 1) / 3

/-! ## Asteroid (src/models/Asteroid.js)

The constructor reads three `Math.random()` values (default angular velocity,
`setupSizeProperties` radius, `setupSizeProperties` split count); they are
bundled in `CtorRand`.  The procedurally generated vertex list and the HSL
colour string are purely visual (only `draw` reads them) and are not carried
by the embedding. -/

/-- Asteroid size category: `'large' | 'medium' | 'small'`. -/
inductive ASize
  | large
  | medium
  | small
deriving DecidableEq

/-- The `Math.random()` draws consumed by the `Asteroid` constructor. -/
structure CtorRand where
  angVelRand : ℚ
  radiusRand : ℚ
  splitRand : ℚ
deriving DecidableEq

/-- `setupSizeProperties` radius: `40 + r*10` / `25 + r*8` / `12 + r*5`. -/
def setupRadius (s : ASize) (r : ℚ) : ℚ :=
  match s with
  | .large => 40 + r * 10
  | .medium => 25 + r * 8
  | .small => 12 + r * 5

/-- `setupSizeProperties` point value: 20 / 50 / 100. -/
def setupPointValue : ASize → ℕ
  | .large => 20
  | .medium => 50
  | .small => 100

/-- `setupSizeProperties` split count: `2 + Math.floor(r * 2)` for large and
medium, 0 for small. -/
def setupSplitCount (s : ASize) (r : ℚ) : ℕ :=
  match s with
  | .small => 0
  | _ => 2 + (⌊r * 2⌋).toNat

/-- Asteroid state (visual-only fields omitted, see the section comment). -/
structure Asteroid where
  position : Vec2
  velocity : Vec2
  angularVelocity : ℚ
  rotation : ℚ
  size : ASize
  radius : ℚ
  pointValue : ℕ
  splitCount : ℕ
  isActive : Bool
  screenWidth : ℚ
  screenHeight : ℚ
deriving DecidableEq

/-- The `Asteroid` constructor: `angularVelocityOpt` is `options.angularVelocity`
(defaulting to `(r - 0.5) * 2` from the constructor's own draw), rotation
defaults to 0 at every call site of interest, and `setupSizeProperties`
derives radius / point value / split count from the size tag. -/
def mkAsteroid (position velocity : Vec2) (angularVelocityOpt : Option ℚ)
    (rotation : ℚ) (size : ASize) (cr : CtorRand) (screenWidth screenHeight : ℚ) :
    Asteroid :=
  { position := position
    velocity := velocity
    angularVelocity := angularVelocityOpt.getD ((cr.angVelRand - 1 / 2) * 2)
    rotation := rotation
    size := size
    radius := setupRadius size cr.radiusRand
    pointValue := setupPointValue size
    splitCount := setupSplitCount size cr.splitRand
    isActive := true
    screenWidth := screenWidth
    screenHeight := screenHeight }

/-- The random data consumed per fragment in `Asteroid.split`: the unit
direction `(cos θᵢ, sin θᵢ)` of the fragment angle
`θᵢ = (i / splitCount)·2π + Math.random()·0.5`, the speed draw, and the
constructor draws of the fragment. -/
structure FragRand where
  angleDir : Vec2
  speedRand : ℚ
  ctor : CtorRand

/-- `Asteroid.split()`: early-returns an empty fragment list when
`splitCount = 0` (small asteroids) — leaving the parent untouched — and
otherwise builds `splitCount` fragments of the next-smaller size (fragment
`i`: velocity `dirᵢ · (50 + randᵢ·100) + 0.3 · parent velocity`, position
`parent position + dirᵢ · (0.3 · parent radius)`, angular velocity
`(rand − 0.5)·4`) and deactivates the parent.  Returns the fragment list and
the (possibly deactivated) parent. -/
def Asteroid.split (a : Asteroid) (fr : ℕ → FragRand) : List Asteroid × Asteroid :=
  if a.splitCount = 0 then ([], a)
  else
    let nextSize := if a.size = ASize.large then ASize.medium else ASize.small
    ((List.range a.splitCount).map (fun i =>
        let r := fr i
        let speed := 50 + r.speedRand * 100
        let fragmentVelocity := vadd (vmul r.angleDir speed) (vmul a.velocity (3 / 10))
        let offset := vmul r.angleDir (a.radius * (3 / 10))
        mkAsteroid (vadd a.position offset) fragmentVelocity
          (some ((r.ctor.angVelRand - 1 / 2) * 4)) 0 nextSize r.ctor
          a.screenWidth a.screenHeight),
      { a with isActive := false })

/-- Fragment-level description of `Asteroid.split` on an asteroid with a
non-zero split count. -/
theorem split_fragments_spec (a : Asteroid) (fr : ℕ → FragRand)
    (hne : a.splitCount ≠ 0) (hdir : ∀ i, magSq (fr i).angleDir = 1) :
    (a.split fr).1.length = a.splitCount ∧
    (a.split fr).2 = { a with isActive := false } ∧
    (∀ i (hi : i < (a.split fr).1.length),
      (((a.split fr).1.get ⟨i, hi⟩).size =
          if a.size = ASize.large then ASize.medium else ASize.small) ∧
      ((a.split fr).1.get ⟨i, hi⟩).isActive = true ∧
      vsub (((a.split fr).1.get ⟨i, hi⟩).velocity) (vmul a.velocity (3 / 10)) =
        vmul (fr i).angleDir (50 + (fr i).speedRand * 100) ∧
      magSq (vsub (((a.split fr).1.get ⟨i, hi⟩).velocity) (vmul a.velocity (3 / 10))) =
        (50 + (fr i).speedRand * 100) ^ 2 ∧
      vsub (((a.split fr).1.get ⟨i, hi⟩).position) a.position =
        vmul (fr i).angleDir (a.radius * (3 / 10))) := by
  rw [Asteroid.split, if_neg hne]
  refine ⟨by simp, rfl, ?_⟩
  intro i hi
  simp only [List.length_map, List.length_range] at hi
  have hget : ∀ (hj : i < (((List.range a.splitCount).map (fun i =>
      let r := fr i
      let speed := 50 + r.speedRand * 100
      let fragmentVelocity := vadd (vmul r.angleDir speed) (vmul a.velocity (3 / 10))
      let offset := vmul r.angleDir (a.radius * (3 / 10))
      mkAsteroid (vadd a.position offset) fragmentVelocity
        (some ((r.ctor.angVelRand - 1 / 2) * 4)) 0
        (if a.size = ASize.large then ASize.medium else ASize.small) r.ctor
        a.screenWidth a.screenHeight))).length),
      ((List.range a.splitCount).map _).get ⟨i, hj⟩ =
        mkAsteroid (vadd a.position (vmul (fr i).angleDir (a.radius * (3 / 10))))
          (vadd (vmul (fr i).angleDir (50 + (fr i).speedRand * 100))
            (vmul a.velocity (3 / 10)))
          (some (((fr i).ctor.angVelRand - 1 / 2) * 4)) 0
          (if a.size = ASize.large then ASize.medium else ASize.small) (fr i).ctor
          a.screenWidth a.screenHeight := by
    intro hj
    simp [List.getElem_map, List.getElem_range]
  rw [hget]
  refine ⟨by simp [mkAsteroid], by simp [mkAsteroid], ?_, ?_, ?_⟩
  · simp only [mkAsteroid, vsub, vadd, vmul]
    refine Prod.ext ?_ ?_ <;> dsimp <;> ring
  · have hv : vsub (vadd (vmul (fr i).angleDir (50 + (fr i).speedRand * 100))
        (vmul a.velocity (3 / 10))) (vmul a.velocity (3 / 10)) =
        vmul (fr i).angleDir (50 + (fr i).speedRand * 100) := by
      simp only [vsub, vadd, vmul]
      refine Prod.ext ?_ ?_ <;> dsimp <;> ring
    rw [show (mkAsteroid (vadd a.position (vmul (fr i).angleDir (a.radius * (3 / 10))))
        (vadd (vmul (fr i).angleDir (50 + (fr i).speedRand * 100))
          (vmul a.velocity (3 / 10)))
        (some (((fr i).ctor.angVelRand - 1 / 2) * 4)) 0
        (if a.size = ASize.large then ASize.medium else ASize.small) (fr i).ctor
        a.screenWidth a.screenHeight).velocity =
      vadd (vmul (fr i).angleDir (50 + (fr i).speedRand * 100))
        (vmul a.velocity (3 / 10)) from rfl, hv]
    have hms : magSq (vmul (fr i).angleDir (50 + (fr i).speedRand * 100)) =
        (50 + (fr i).speedRand * 100) ^ 2 * magSq (fr i).angleDir := by
      simp only [magSq, vmul]; ring
    rw [hms, hdir i, mul_one]
  · simp only [mkAsteroid, vsub, vadd, vmul]
    refine Prod.ext ?_ ?_ <;> dsimp <;> ring

/-- C2 (amended): splitting an asteroid constructed with size `large` or
`medium` (constructor split draw in `[0,1)`) yields `splitCount ∈ {2,3}`
fragments of the next-smaller size — each with velocity a unit-direction
vector scaled by a speed in `[50,150)` plus 30% of the parent's velocity, and
position offset from the parent's centre by 30% of the parent's radius along
the same direction — and deactivates the parent; splitting a small asteroid
(`splitCount = 0`) returns an empty list and returns the parent **unchanged**
(still active): the deactivation of a small parent is performed by
`EntityManager.destroyAsteroid`, not by `split` itself. -/
theorem asteroid_split_behaviour (s : ASize) (cr : CtorRand) (pos vel : Vec2)
    (av : Option ℚ) (rot w h : ℚ) (fr : ℕ → FragRand)
    (hs0 : 0 ≤ cr.splitRand) (hs1 : cr.splitRand < 1)
    (hdir : ∀ i, magSq (fr i).angleDir = 1)
    (hspd : ∀ i, 0 ≤ (fr i).speedRand ∧ (fr i).speedRand < 1) :
    (s = ASize.small →
      (mkAsteroid pos vel av rot s cr w h).split fr =
        ([], mkAsteroid pos vel av rot s cr w h)) ∧
    (s ≠ ASize.small →
      ((mkAsteroid pos vel av rot s cr w h).splitCount = 2 ∨
        (mkAsteroid pos vel av rot s cr w h).splitCount = 3) ∧
      ((mkAsteroid pos vel av rot s cr w h).split fr).1.length =
        (mkAsteroid pos vel av rot s cr w h).splitCount ∧
      (((mkAsteroid pos vel av rot s cr w h).split fr).2.isActive = false) ∧
      (∀ i (hi : i < ((mkAsteroid pos vel av rot s cr w h).split fr).1.length),
        ((((mkAsteroid pos vel av rot s cr w h).split fr).1.get ⟨i, hi⟩).size =
            if s = ASize.large then ASize.medium else ASize.small) ∧
        vsub ((((mkAsteroid pos vel av rot s cr w h).split fr).1.get ⟨i, hi⟩).velocity)
            (vmul vel (3 / 10)) =
          vmul (fr i).angleDir (50 + (fr i).speedRand * 100) ∧
        magSq (vsub ((((mkAsteroid pos vel av rot s cr w h).split fr).1.get
              ⟨i, hi⟩).velocity) (vmul vel (3 / 10))) =
          (50 + (fr i).speedRand * 100) ^ 2 ∧
        (50 ≤ 50 + (fr i).speedRand * 100 ∧ 50 + (fr i).speedRand * 100 < 150) ∧
        vsub ((((mkAsteroid pos vel av rot s cr w h).split fr).1.get ⟨i, hi⟩).position)
            pos =
          vmul (fr i).angleDir ((setupRadius s cr.radiusRand) * (3 / 10)))) := by
  constructor
  · intro hs
    subst hs
    rw [Asteroid.split, if_pos (by simp [mkAsteroid, setupSplitCount])]
  · intro hs
    have hcount : (mkAsteroid pos vel av rot s cr w h).splitCount =
        2 + (⌊cr.splitRand * 2⌋).toNat := by
      cases s with
      | small => exact absurd rfl hs
      | large => simp [mkAsteroid, setupSplitCount]
      | medium => simp [mkAsteroid, setupSplitCount]
    have hfl0 : (0 : ℤ) ≤ ⌊cr.splitRand * 2⌋ := Int.floor_nonneg.mpr (by linarith)
    have hfl2 : ⌊cr.splitRand * 2⌋ < 2 := by
      rw [Int.floor_lt]
      push_cast
      linarith
    have hne : (mkAsteroid pos vel av rot s cr w h).splitCount ≠ 0 := by omega
    obtain ⟨hlen, -, hfrag⟩ :=
      split_fragments_spec (mkAsteroid pos vel av rot s cr w h) fr hne hdir
    refine ⟨by omega, hlen, ?_, ?_⟩
    · rw [(split_fragments_spec (mkAsteroid pos vel av rot s cr w h) fr hne hdir).2.1]
    · intro i hi
      obtain ⟨hsz, -, hvel, hmag, hpos⟩ := hfrag i hi
      exact ⟨hsz, hvel, hmag,
        ⟨by nlinarith [(hspd i).1], by nlinarith [(hspd i).2]⟩, hpos⟩

/-- A concrete small asteroid for the C2 counterexample. -/
def c2SmallAst : Asteroid := mkAsteroid (100, 100) (10, 0) none 0 ASize.small ⟨0, 0, 0⟩ 800 600

/-- A concrete fragment-random stream for the C2 counterexample. -/
def c2FrZero : ℕ → FragRand := fun _ => ⟨(1, 0), 0, ⟨0, 0, 0⟩⟩

/-- C2 counterexample: for a small asteroid (`splitCount = 0`), `split` takes
the early-return branch *before* the `isActive = false` assignment, so it
returns an empty fragment list but leaves the parent active — contradicting
the claim that it "still deactivates the parent". -/
theorem asteroid_split_small_counterexample :
    (c2SmallAst.split c2FrZero).1 = [] ∧
      (c2SmallAst.split c2FrZero).2.isActive = true := by
  rw [Asteroid.split, if_pos (show c2SmallAst.splitCount = 0 from rfl)]
  exact ⟨rfl, rfl⟩

/-- Fragment-random stream for the C2 witness (unit direction `(3/5, 4/5)`). -/
def c2wFr : ℕ → FragRand := fun _ => ⟨(3 / 5, 4 / 5), 1 / 2, ⟨0, 0, 0⟩⟩

/-- Witness for the C2 theorem: a concrete large asteroid is deactivated by
`split`. -/
theorem asteroid_split_behaviour_witness :
    ((mkAsteroid (0, 0) (10, 0) none 0 ASize.large ⟨0, 0, 0⟩ 800 600).split
      c2wFr).2.isActive = false := by
  have h := asteroid_split_behaviour ASize.large ⟨0, 0, 0⟩ (0, 0) (10, 0) none 0 800 600
    c2wFr (by norm_num) (by norm_num)
    (fun i => by norm_num [c2wFr, magSq])
    (fun i => by norm_num [c2wFr])
  exact (h.2 (by decide)).2.2.1

/-- The random data consumed by `Asteroid.createRandom`: the per-attempt
position draws (a pair in `[0,1)²` per attempt), the unit direction of the
random velocity angle, and the speed and constructor draws. -/
structure AsteroidRand where
  posRand : ℕ → ℚ × ℚ
  velDir : Vec2
  speedRand : ℚ
  ctor : CtorRand

/-- Attempted spawn position number `k` in `Asteroid.createRandom`:
`(Math.random() * screenWidth, Math.random() * screenHeight)`. -/
def attemptPos (w h : ℚ) (pr : ℕ → ℚ × ℚ) (k : ℕ) : Vec2 :=
  ((pr k).1 * w, (pr k).2 * h)

/-- The do/while rejection loop of `Asteroid.createRandom` (maxAttempts = 50):
the first attempted position at squared distance at least `safeDistance²`
from the player wins; if all 50 attempts are too close, the last (50th)
attempt is used as a fallback.  The source compares
`position.distanceTo(playerPosition) < safeDistance`; with the non-negative
`safeDistance` this is equivalent to the squared comparison used here. -/
def spawnPosition (player : Vec2) (w h safeDistance : ℚ) (pr : ℕ → ℚ × ℚ) : Vec2 :=
  match (List.range 50).find?
      (fun k => decide (safeDistance * safeDistance ≤ distSq (attemptPos w h pr k) player)) with
  | some k => attemptPos w h pr k
  | none => attemptPos w h pr 49

/-- `Asteroid.createRandom`: rejection-sampled position, random velocity of
magnitude `20 + Math.random()*40` along a random direction, constructor with
the given size. -/
def Asteroid.createRandom (player : Vec2) (size : ASize) (w h safeDistance : ℚ)
    (r : AsteroidRand) : Asteroid :=
  mkAsteroid (spawnPosition player w h safeDistance r.posRand)
    (vmul r.velDir (20 + r.speedRand * 40)) none 0 size r.ctor w h

/-- The difficulty-keyed `sizeDistribution` table of `Asteroid.createField`. -/
def sizeDistribution : Difficulty → List ASize
  | .easy => [.large, .large, .large, .medium]
  | .medium => [.large, .large, .medium, .medium, .small]
  | .hard => [.large, .medium, .medium, .small, .small, .small]

/-- `Asteroid.createField(count, playerPosition, difficulty, w, h)`: asteroid
`i` has size `sizes[i % sizes.length]` and is created by `createRandom` with
safe distance 120 (the index into the non-empty distribution list is always
in bounds; `getD` supplies an unreachable default). -/
def Asteroid.createField (count : ℕ) (player : Vec2) (difficulty : Difficulty)
    (w h : ℚ) (rs : ℕ → AsteroidRand) : List Asteroid :=
  (List.range count).map (fun i =>
    let sizes := sizeDistribution difficulty
    Asteroid.createRandom player (sizes.getD (i % sizes.length) ASize.large)
      w h 120 (rs i))

/-- `Game.handleLevelComplete()`: `completeLevel` (500-point bonus, level
increment) followed by a fresh asteroid field of
`getAsteroidCountForLevel()` asteroids placed relative to the ship
(`selectedDifficulty` mirrors the difficulty chosen at `startNewGame`;
`w`, `h` are the screen dimensions; `now` models `Date.now()`). -/
def Game.handleLevelComplete (gs : GameState) (shipPos : Vec2)
    (selectedDifficulty : Difficulty) (now w h : ℚ) (rs : ℕ → AsteroidRand) :
    GameState × List Asteroid :=
  let gs1 := gs.completeLevel now
  let count := gs1.getAsteroidCountForLevel
  (gs1, Asteroid.createField count shipPos selectedDifficulty w h rs)

/-- Every spawn position either clears the safe distance, or every one of
the 50 attempted positions was inside it (and the fallback, attempt 49,
was used). -/
theorem spawnPosition_spec (player : Vec2) (w h safeDistance : ℚ) (pr : ℕ → ℚ × ℚ) :
    safeDistance * safeDistance ≤ distSq (spawnPosition player w h safeDistance pr) player ∨
    ((∀ k < 50, distSq (attemptPos w h pr k) player < safeDistance * safeDistance) ∧
      spawnPosition player w h safeDistance pr = attemptPos w h pr 49) := by
  unfold spawnPosition
  rcases hf : (List.range 50).find?
      (fun k => decide (safeDistance * safeDistance ≤ distSq (attemptPos w h pr k) player)) with
    - | k
  · right
    refine ⟨?_, rfl⟩
    intro k hk
    have := List.find?_eq_none.mp hf k (List.mem_range.mpr hk)
    simpa using this
  · left
    have := List.find?_some hf
    simpa using this

/-- `addScore` adds exactly its points to the score. -/
theorem addScore_score (gs : GameState) (p : ℚ) (src : ScoreSource) :
    (gs.addScore p src).1.score = gs.score + p := by
  simp only [GameState.addScore]
  split_ifs <;> rfl

/-- `addScore` never touches the level. -/
theorem addScore_level (gs : GameState) (p : ℚ) (src : ScoreSource) :
    (gs.addScore p src).1.level = gs.level := by
  simp only [GameState.addScore]
  split_ifs <;> rfl

/-- `addScore` never touches the difficulty. -/
theorem addScore_difficulty (gs : GameState) (p : ℚ) (src : ScoreSource) :
    (gs.addScore p src).1.difficulty = gs.difficulty := by
  simp only [GameState.addScore]
  split_ifs <;> rfl

/-- C3 (amended): when the active asteroid count is 0 during the `playing`
phase, the next orchestrator update runs `handleLevelComplete`, which awards
exactly 500 bonus points, increments the level by exactly 1, and spawns
`baseAsteroidCount + floor((newLevel − 1) / 3)` asteroids (where `newLevel`
is the already-incremented level); each spawned asteroid is at least 120
units from the ship's position **unless** all 50 placement attempts for it
fell within 120 units, in which case the 50th attempted position is used
as-is (and may lie within 120 units of the ship). -/
theorem level_complete_spec (gs : GameState) (shipPos : Vec2) (selDiff : Difficulty)
    (now w h : ℚ) (rs : ℕ → AsteroidRand) :
    (Game.handleLevelComplete gs shipPos selDiff now w h rs).1.score = gs.score + 500 ∧
    (Game.handleLevelComplete gs shipPos selDiff now w h rs).1.level = gs.level + 1 ∧
    (Game.handleLevelComplete gs shipPos selDiff now w h rs).2.length =
      (difficultySettings gs.difficulty).baseAsteroidCount + (gs.level + 1 - 1) / 3 ∧
    (∀ i (hi : i < (Game.handleLevelComplete gs shipPos selDiff now w h rs).2.length),
      120 * 120 ≤ distSq
          (((Game.handleLevelComplete gs shipPos selDiff now w h rs).2.get
            ⟨i, hi⟩).position) shipPos ∨
      (∀ k < 50, distSq (attemptPos w h (rs i).posRand k) shipPos < 120 * 120)) := by
  have hscore : (gs.completeLevel now).score = gs.score + 500 := by
    unfold GameState.completeLevel GameState.advanceLevel GameState.awardLevelBonus
    exact addScore_score gs 500 .levelBonusSrc
  have hlevel : (gs.completeLevel now).level = gs.level + 1 := by
    unfold GameState.completeLevel GameState.advanceLevel GameState.awardLevelBonus
    simp [addScore_level]
  have hdiff : (gs.completeLevel now).difficulty = gs.difficulty := by
    unfold GameState.completeLevel GameState.advanceLevel GameState.awardLevelBonus
    simp [addScore_difficulty]
  refine ⟨hscore, hlevel, ?_, ?_⟩
  · unfold Game.handleLevelComplete Asteroid.createField
    simp [GameState.getAsteroidCountForLevel, hdiff, hlevel]
  · intro i hi
    have hget : ((Game.handleLevelComplete gs shipPos selDiff now w h rs).2.get
        ⟨i, hi⟩).position = spawnPosition shipPos w h 120 (rs i).posRand := by
      have hi' := hi
      unfold Game.handleLevelComplete Asteroid.createField at hi' ⊢
      simp only [List.get_eq_getElem, List.getElem_map, List.getElem_range,
        List.length_map, List.length_range] at hi' ⊢
      rfl
    rw [hget]
    rcases spawnPosition_spec shipPos w h 120 (rs i).posRand with hfar | ⟨hall, -⟩
    · exact Or.inl hfar
    · exact Or.inr hall

/-- Game state for the C3 counterexample: level 1, score 0, medium
difficulty, `playing` phase (asteroid count 0 triggers the completion). -/
def c3gs : GameState := ⟨0, 3, 1, .medium, .playing, false, false, 0, 0, 0, 0, 0, 0, 0⟩

/-- Random streams for the C3 counterexample: every position draw is
`(0.5, 0.5)`, i.e. every attempted spawn lands exactly on the screen centre. -/
def c3rs : ℕ → AsteroidRand := fun _ => ⟨fun _ => (1 / 2, 1 / 2), (1, 0), 0, ⟨0, 0, 0⟩⟩

/-- C3 counterexample: with the ship at the screen centre `(400, 300)` of an
800×600 screen and all placement draws at `(0.5, 0.5)`, every one of the 50
attempts lands on the ship, the fallback is taken, and the spawned asteroid
sits at distance 0 < 120 from the ship — refuting "none of which is placed
within 120 units of the ship's position" (bonus and level increment do
happen). -/
theorem level_complete_counterexample :
    (Game.handleLevelComplete c3gs (400, 300) .medium 0 800 600 c3rs).1.score = 500 ∧
    (Game.handleLevelComplete c3gs (400, 300) .medium 0 800 600 c3rs).1.level = 2 ∧
    ∃ a ∈ (Game.handleLevelComplete c3gs (400, 300) .medium 0 800 600 c3rs).2,
      distSq a.position (400, 300) < 120 * 120 := by
  have hscore : (Game.handleLevelComplete c3gs (400, 300) .medium 0 800 600 c3rs).1.score
      = 500 := by
    show (c3gs.completeLevel 0).score = 500
    unfold GameState.completeLevel GameState.advanceLevel GameState.awardLevelBonus
    rw [show ((c3gs.addScore 500 .levelBonusSrc).1.score = c3gs.score + 500) from
      addScore_score c3gs 500 .levelBonusSrc]
    norm_num [c3gs]
  have hlevel : (Game.handleLevelComplete c3gs (400, 300) .medium 0 800 600 c3rs).1.level
      = 2 := by
    show (c3gs.completeLevel 0).level = 2
    unfold GameState.completeLevel GameState.advanceLevel GameState.awardLevelBonus
    simp [addScore_level, c3gs]
  have hdiff : (c3gs.completeLevel 0).difficulty = Difficulty.medium := by
    unfold GameState.completeLevel GameState.advanceLevel GameState.awardLevelBonus
    simp [addScore_difficulty, c3gs]
  have hcount : (c3gs.completeLevel 0).getAsteroidCountForLevel = 5 := by
    unfold GameState.getAsteroidCountForLevel
    rw [hdiff]
    have : (c3gs.completeLevel 0).level = 2 := hlevel
    rw [this]
    norm_num [difficultySettings]
  have hspawn : spawnPosition (400, 300) 800 600 120 (c3rs 0).posRand = (400, 300) := by
    have hfind : (List.range 50).find? (fun k =>
        decide ((120 : ℚ) * 120 ≤
          distSq (attemptPos 800 600 (c3rs 0).posRand k) (400, 300))) = none := by
      rw [List.find?_eq_none]
      intro k hk
      norm_num [attemptPos, distSq, c3rs]
    unfold spawnPosition
    rw [hfind]
    norm_num [attemptPos, c3rs]
  refine ⟨hscore, hlevel, ?_⟩
  refine ⟨Asteroid.createRandom (400, 300) ASize.large 800 600 120 (c3rs 0), ?_, ?_⟩
  · show _ ∈ Asteroid.createField (c3gs.completeLevel 0).getAsteroidCountForLevel
      (400, 300) .medium 800 600 c3rs
    rw [hcount]
    unfold Asteroid.createField
    refine List.mem_map.mpr ⟨0, List.mem_range.mpr (by norm_num), ?_⟩
    norm_num [sizeDistribution]
  · show distSq (Asteroid.createRandom (400, 300) ASize.large 800 600 120 (c3rs 0)).position
      (400, 300) < 120 * 120
    rw [show (Asteroid.createRandom (400, 300) ASize.large 800 600 120 (c3rs 0)).position =
      spawnPosition (400, 300) 800 600 120 (c3rs 0).posRand from rfl, hspawn]
    norm_num [distSq]

/-- Witness for the C3 theorem at the concrete counterexample inputs. -/
theorem level_complete_spec_witness :
    (Game.handleLevelComplete c3gs (400, 300) .medium 0 800 600 c3rs).1.score =
      c3gs.score + 500 ∧
    (Game.handleLevelComplete c3gs (400, 300) .medium 0 800 600 c3rs).1.level =
      c3gs.level + 1 := by
  have h := level_complete_spec c3gs (400, 300) .medium 0 800 600 c3rs
  exact ⟨h.1, h.2.1⟩

/-! ## Ship (src/models/Ship.js)

Rotation is stored in units of π radians (see the file header); the thrust
direction `Vector2D.fromAngle(rotation)` and the firing direction are passed
as explicit unit vectors. -/

/-- Entity type tag (`entity.type` strings). -/
inductive EntityType
  | shipT
  | asteroidT
  | projectileT
  | particleT
deriving DecidableEq

/-- Ship state. -/
structure Ship where
  position : Vec2
  velocity : Vec2
  rotation : ℚ
  radius : ℚ
  thrustPower : ℚ
  rotationSpeed : ℚ
  maxVelocity : ℚ
  drag : ℚ
  isThrusting : Bool
  isInvulnerable : Bool
  invulnerabilityTimer : ℚ
  invulnerabilityDuration : ℚ
  lastFireTime : ℚ
  fireRate : ℚ
  projectileSpeed : ℚ
  screenWidth : ℚ
  screenHeight : ℚ
deriving DecidableEq

/-- The default-constructed ship of `new Ship(options)` with only position,
colour and screen bounds supplied (as `Game.startNewGame` does): radius 12,
thrust 200 px/s², rotation speed π rad/s (1 in π-units), max velocity 300,
drag 0.98, invulnerability 2000 ms, fire rate 250 ms, projectile speed 400. -/
def mkShip (position : Vec2) (screenWidth screenHeight : ℚ) : Ship :=
  { position := position
    velocity := (0, 0)
    rotation := 0
    radius := 12
    thrustPower := 200
    rotationSpeed := 1
    maxVelocity := 300
    drag := 98 / 100
    isThrusting := false
    isInvulnerable := false
    invulnerabilityTimer := 0
    invulnerabilityDuration := 2000
    lastFireTime := 0
    fireRate := 250
    projectileSpeed := 400
    screenWidth := screenWidth
    screenHeight := screenHeight }

/-- `Ship.wrapScreenEdges()`: hard wrap to the opposite edge. -/
def wrapShipPos (p : Vec2) (w h : ℚ) : Vec2 :=
  let x := if p.1 < 0 then w else if w < p.1 then 0 else p.1
  let y := if p.2 < 0 then h else if h < p.2 then 0 else p.2
  (x, y)

/-- Velocity after the thrust integration step of `Ship.update` (`dir` is the
unit vector `fromAngle(rotation)`). -/
def Ship.thrustVelocity (s : Ship) (dt : ℚ) (dir : Vec2) : Vec2 :=
  if s.isThrusting then vadd s.velocity (vmul dir (s.thrustPower * (dt / 1000)))
  else s.velocity

/-- Velocity after thrust and drag, i.e. the vector whose magnitude the
`limit` call inside `Ship.update` takes the square root of. -/
def Ship.preLimitVelocity (s : Ship) (dt : ℚ) (dir : Vec2) : Vec2 :=
  vmul (s.thrustVelocity dt dir) s.drag

/-- `Ship.update(deltaTime)`: thrust integration, position integration (with
the post-thrust velocity), drag, velocity clamp (`m` is the magnitude of the
pre-clamp velocity, see `limitW`), screen wrap, and invulnerability
count-down. -/
def Ship.update (s : Ship) (dt : ℚ) (dir : Vec2) (m : ℚ) : Ship :=
  let v1 := s.thrustVelocity dt dir
  let pos1 := vadd s.position (vmul v1 (dt / 1000))
  let v3 := limitW (s.preLimitVelocity dt dir) s.maxVelocity m
  let pos2 := wrapShipPos pos1 s.screenWidth s.screenHeight
  let s1 := { s with position := pos2, velocity := v3 }
  if s1.isInvulnerable then
    let t := s1.invulnerabilityTimer - dt
    if t ≤ 0 then { s1 with isInvulnerable := false, invulnerabilityTimer := 0 }
    else { s1 with invulnerabilityTimer := t }
  else s1

/-- `Ship.canFire(currentTime)`. -/
def Ship.canFire (s : Ship) (currentTime : ℚ) : Bool :=
  decide (s.fireRate ≤ currentTime - s.lastFireTime)

/-- The projectile descriptor returned by `Ship.createProjectile`. -/
structure ProjOpts where
  position : Vec2
  velocity : Vec2
  rotation : ℚ
deriving DecidableEq

/-- `Ship.createProjectile(currentTime)`: `null` before the fire cooldown has
elapsed; otherwise records the shot time and returns position offset by
`radius + 5` along the facing direction and velocity = ship velocity plus
`projectileSpeed` along the facing direction (`dir` is the unit vector
`fromAngle(rotation)`). -/
def Ship.createProjectile (s : Ship) (currentTime : ℚ) (dir : Vec2) :
    Option ProjOpts × Ship :=
  if s.canFire currentTime then
    (some ⟨vadd s.position (vmul dir (s.radius + 5)),
           vadd s.velocity (vmul dir s.projectileSpeed),
           s.rotation⟩,
     { s with lastFireTime := currentTime })
  else (none, s)

/-- `Ship.respawn()`: centre position, zero velocity, facing up
(`-Math.PI/2`, i.e. `-(1/2)` in π-units), thrust off, fresh invulnerability
window. -/
def Ship.respawn (s : Ship) : Ship :=
  { s with position := (s.screenWidth / 2, s.screenHeight / 2)
           velocity := (0, 0)
           rotation := -(1 / 2)
           isThrusting := false
           isInvulnerable := true
           invulnerabilityTimer := s.invulnerabilityDuration }

/-- `Ship.onCollision(other)`: ignored entirely while invulnerable; an
asteroid collision triggers `destroy()` (= `respawn()`) and reports `true`. -/
def Ship.onCollision (s : Ship) (otherType : EntityType) : Ship × Bool :=
  if s.isInvulnerable then (s, false)
  else if otherType = EntityType.asteroidT then (s.respawn, true)
  else (s, false)

/-- The ship–asteroid branch of `Game.handleCollisions`: notify the ship and,
when the collision was processed, charge a life via `GameState.loseLife`
(the explosion particle effect is purely visual). -/
def Game.handleShipAsteroidCollision (ship : Ship) (gs : GameState) (now : ℚ) :
    Ship × GameState :=
  let r := ship.onCollision EntityType.asteroidT
  if r.2 then (r.1, (gs.loseLife now).1) else (r.1, gs)

/-- C8: a ship–asteroid collision processed while not invulnerable decrements
lives by exactly one and respawns the ship at the screen centre with zero
velocity, facing up (`-π/2`, i.e. `-(1/2)` in π-units), thrust off, and a
fresh invulnerability window of `invulnerabilityDuration` = 2000 ms; a
collision processed while invulnerable is ignored and leaves both the ship
(position and velocity included) and the game state unchanged. -/
theorem ship_collision_respawn_spec (ship : Ship) (gs : GameState) (now : ℚ)
    (hdur : ship.invulnerabilityDuration = 2000) :
    (ship.isInvulnerable = false →
      (Game.handleShipAsteroidCollision ship gs now).2.lives = gs.lives - 1 ∧
      (Game.handleShipAsteroidCollision ship gs now).1.position =
        (ship.screenWidth / 2, ship.screenHeight / 2) ∧
      (Game.handleShipAsteroidCollision ship gs now).1.velocity = (0, 0) ∧
      (Game.handleShipAsteroidCollision ship gs now).1.rotation = -(1 / 2) ∧
      (Game.handleShipAsteroidCollision ship gs now).1.isInvulnerable = true ∧
      (Game.handleShipAsteroidCollision ship gs now).1.invulnerabilityTimer = 2000) ∧
    (ship.isInvulnerable = true →
      Game.handleShipAsteroidCollision ship gs now = (ship, gs)) := by
  constructor
  · intro hinv
    have hlives : ((gs.loseLife now).1).lives = gs.lives - 1 := by
      unfold GameState.loseLife
      dsimp only
      split_ifs <;> rfl
    simp [Game.handleShipAsteroidCollision, Ship.onCollision, Ship.respawn, hinv, hlives,
      hdur]
  · intro hinv
    simp [Game.handleShipAsteroidCollision, Ship.onCollision, hinv]

/-- Witness for C8: a concrete vulnerable ship loses exactly one life and is
respawned invulnerable. -/
theorem ship_collision_respawn_spec_witness :
    (Game.handleShipAsteroidCollision (mkShip (100, 100) 800 600) c3gs 0).2.lives = 2 ∧
    (Game.handleShipAsteroidCollision (mkShip (100, 100) 800 600) c3gs 0).1.position =
      (400, 300) := by
  have h := (ship_collision_respawn_spec (mkShip (100, 100) 800 600) c3gs 0 rfl).1 rfl
  refine ⟨?_, ?_⟩
  · rw [h.1]
    norm_num [c3gs]
  · rw [h.2.1]
    norm_num [mkShip]

/-- C10: after every `Ship.update(dt)` with `dt ≥ 0`, the squared magnitude
of the ship's velocity is at most `maxVelocity²` (maxVelocity = 300 for every
ship the game constructs), whatever the thrust flag and the prior velocity:
thrust integration is always followed by drag and the `limit(maxVelocity)`
clamp within the same update.  `m` is the (non-negative) magnitude of the
pre-clamp velocity, characterising the `Math.sqrt` value used by `limit`. -/
theorem ship_update_velocity_clamped (s : Ship) (dt : ℚ) (dir : Vec2) (m : ℚ)
    (hdt : 0 ≤ dt) (hm0 : 0 ≤ m)
    (hm : m * m = magSq (s.preLimitVelocity dt dir)) :
    magSq (Ship.update s dt dir m).velocity ≤ s.maxVelocity * s.maxVelocity := by
  have hv : (Ship.update s dt dir m).velocity =
      limitW (s.preLimitVelocity dt dir) s.maxVelocity m := by
    unfold Ship.update
    dsimp only
    split_ifs <;> rfl
  rw [hv]
  unfold limitW
  by_cases hc : s.maxVelocity * s.maxVelocity < magSq (s.preLimitVelocity dt dir)
  · have hmpos : 0 < m := by
      rcases lt_or_eq_of_le hm0 with h | h
      · exact h
      · exfalso
        rw [← h] at hm
        nlinarith [mul_self_nonneg s.maxVelocity]
    rw [if_pos hc, normalizeW, if_pos hmpos]
    have hmag : magSq ((s.preLimitVelocity dt dir).1 / m, (s.preLimitVelocity dt dir).2 / m)
        = 1 := by
      rw [magSq] at hm ⊢
      field_simp
      linarith [hm]
    have : magSq (vmul ((s.preLimitVelocity dt dir).1 / m,
        (s.preLimitVelocity dt dir).2 / m) s.maxVelocity) =
        s.maxVelocity * s.maxVelocity *
          magSq ((s.preLimitVelocity dt dir).1 / m, (s.preLimitVelocity dt dir).2 / m) := by
      rw [magSq, magSq, vmul]
      ring
    rw [this, hmag, mul_one]
  · rw [if_neg hc]
    linarith [hc]

/-- Witness for C10: a ship moving at speed 400 (above the 300 cap) with
thrust off; after drag the pre-clamp speed is 392, and the update clamps the
squared speed to exactly 300². -/
theorem ship_update_velocity_clamped_witness :
    magSq (Ship.update { mkShip (100, 100) 800 600 with velocity := (0, 400) }
      100 (1, 0) 392).velocity ≤ 300 * 300 := by
  have h := ship_update_velocity_clamped
    { mkShip (100, 100) 800 600 with velocity := (0, 400) } 100 (1, 0) 392
    (by norm_num) (by norm_num)
    (by norm_num [Ship.preLimitVelocity, Ship.thrustVelocity, mkShip, magSq, vmul])
  simpa [mkShip] using h

/-! ## Projectile (src/models/Projectile.js) and EntityManager
(src/services/EntityManager.js)

The EntityManager state carried here covers its projectile collections and
pool together with the counters; asteroids and particles have their own
collections that never interact with the projectile pool, and the particle
side effects of `destroyProjectile` (a spark burst) are visual only. -/

/-- Projectile state (visual-only fields omitted).  `startPosition` is the
position recorded at construction for the max-travel-distance check. -/
structure Projectile where
  id : ℕ
  position : Vec2
  velocity : Vec2
  radius : ℚ
  lifespan : ℚ
  age : ℚ
  maxDistance : ℚ
  isActive : Bool
  screenWidth : ℚ
  screenHeight : ℚ
  startPosition : Vec2
deriving DecidableEq

/-- The `Projectile` constructor with the options `EntityManager.createProjectile`
passes (position, velocity, screen bounds): radius 3, lifespan 2000 ms, max
travel distance 1000 px, active, and `startPosition = position.clone()`. -/
def mkProjectile (id : ℕ) (position velocity : Vec2) (screenWidth screenHeight : ℚ) :
    Projectile :=
  { id := id
    position := position
    velocity := velocity
    radius := 3
    lifespan := 2000
    age := 0
    maxDistance := 1000
    isActive := true
    screenWidth := screenWidth
    screenHeight := screenHeight
    startPosition := position }

/-- `Projectile.update(deltaTime)`: integrate position, age, then deactivate
on lifespan expiry, on travelling `maxDistance` from `startPosition` (the
source compares `distanceTo ≥ maxDistance`; both sides are non-negative at
every call site, so the squared comparison is equivalent), or on leaving the
screen by more than a 50-pixel buffer. -/
def Projectile.update (p : Projectile) (dt : ℚ) : Projectile :=
  if p.isActive = false then p
  else
    let pos := vadd p.position (vmul p.velocity (dt / 1000))
    let age := p.age + dt
    let p1 := { p with position := pos, age := age }
    if p1.lifespan ≤ age then { p1 with isActive := false }
    else if p1.maxDistance * p1.maxDistance ≤ distSq pos p1.startPosition then
      { p1 with isActive := false }
    else if pos.1 < -50 ∨ p1.screenWidth + 50 < pos.1 ∨
        pos.2 < -50 ∨ p1.screenHeight + 50 < pos.2 then
      { p1 with isActive := false }
    else p1

/-- Projectile-side state of the `EntityManager`. -/
structure EntityManager where
  projectiles : List Projectile
  projectilePool : List Projectile
  nextEntityId : ℕ
  maxPoolSize : ℕ
  entitiesCreated : ℕ
  entitiesDestroyed : ℕ
  poolHits : ℕ
  poolMisses : ℕ
  screenWidth : ℚ
  screenHeight : ℚ
deriving DecidableEq

/-- The freshly constructed `EntityManager` (empty collections, empty pools,
`maxPoolSize` 50, ids from 1). -/
def initManager (screenWidth screenHeight : ℚ) : EntityManager :=
  { projectiles := []
    projectilePool := []
    nextEntityId := 1
    maxPoolSize := 50
    entitiesCreated := 0
    entitiesDestroyed := 0
    poolHits := 0
    poolMisses := 0
    screenWidth := screenWidth
    screenHeight := screenHeight }

/-- `EntityManager.createProjectile(options)`: pool-first allocation.  A
pooled instance (`Array.pop` takes the most recently pushed one) has its
position, velocity, age and `isActive` reset — but not its `startPosition` —
and keeps its original id; otherwise a new projectile is constructed with a
fresh id.  Either way the projectile is pushed onto the active collection.
Returns the new manager state and the created/recycled projectile. -/
def EntityManager.createProjectile (st : EntityManager) (position velocity : Vec2) :
    EntityManager × Projectile :=
  match st.projectilePool.getLast? with
  | some p0 =>
    let p := { p0 with position := position, velocity := velocity,
                       age := 0, isActive := true }
    ({ st with projectilePool := st.projectilePool.dropLast,
               projectiles := st.projectiles ++ [p],
               poolHits := st.poolHits + 1 }, p)
  | none =>
    let p := mkProjectile st.nextEntityId position velocity
      st.screenWidth st.screenHeight
    ({ st with projectiles := st.projectiles ++ [p],
               nextEntityId := st.nextEntityId + 1,
               entitiesCreated := st.entitiesCreated + 1,
               poolMisses := st.poolMisses + 1 }, p)

/-- `EntityManager.destroyProjectile(projectile)`, with the projectile
denoted by its id: no-op when absent or already inactive, otherwise mark
inactive (the spark burst is visual only). -/
def EntityManager.destroyProjectile (st : EntityManager) (pid : ℕ) : EntityManager :=
  match st.projectiles.find? (fun p => p.id == pid) with
  | none => st
  | some p =>
    if p.isActive = false then st
    else
      { st with
        projectiles := st.projectiles.map (fun q =>
          if q.id == pid then { q with isActive := false } else q),
        entitiesDestroyed := st.entitiesDestroyed + 1 }

/-- The projectile clause of `EntityManager.cleanupInactiveEntities`: filter
the collection, pushing each inactive projectile onto the pool while the pool
is below `maxPoolSize` (first argument). -/
def cleanupProjList (maxPool : ℕ) :
    List Projectile → List Projectile → List Projectile × List Projectile
  | [], pool => ([], pool)
  | p :: rest, pool =>
    if p.isActive then
      let r := cleanupProjList maxPool rest pool
      (p :: r.1, r.2)
    else if pool.length < maxPool then cleanupProjList maxPool rest (pool ++ [p])
    else cleanupProjList maxPool rest pool

/-- `EntityManager.cleanupInactiveEntities()` (projectile part). -/
def EntityManager.cleanupInactiveEntities (st : EntityManager) : EntityManager :=
  let r := cleanupProjList st.maxPoolSize st.projectiles st.projectilePool
  { st with projectiles := r.1, projectilePool := r.2 }

/-- `EntityManager.update(deltaTime)` (projectile part): advance every active
projectile, then clean up. -/
def EntityManager.update (st : EntityManager) (dt : ℚ) : EntityManager :=
  ({ st with projectiles := st.projectiles.map (fun (p : Projectile) =>
      if p.isActive then p.update dt else p) }).cleanupInactiveEntities

/-- One manager operation of the C5 claim's operation language. -/
inductive EMOp
  | createOp (position velocity : Vec2)
  | destroyOp (pid : ℕ)
  | updateOp (dt : ℚ)
  | cleanupOp

/-- Apply one operation. -/
def applyOp (st : EntityManager) : EMOp → EntityManager
  | .createOp position velocity => (st.createProjectile position velocity).1
  | .destroyOp pid => st.destroyProjectile pid
  | .updateOp dt => st.update dt
  | .cleanupOp => st.cleanupInactiveEntities

/-- Apply a sequence of operations. -/
def applyOps (st : EntityManager) (ops : List EMOp) : EntityManager :=
  ops.foldl applyOp st

/-- The cleanup pass never grows the pool beyond the capacity bound. -/
theorem cleanupProjList_pool_le (maxPool : ℕ) (l : List Projectile) :
    ∀ pool : List Projectile, pool.length ≤ maxPool →
      (cleanupProjList maxPool l pool).2.length ≤ maxPool := by
  induction l with
  | nil => intro pool h; simpa [cleanupProjList] using h
  | cons p rest ih =>
    intro pool h
    simp only [cleanupProjList]
    split_ifs with h1 h2
    · exact ih pool h
    · exact ih (pool ++ [p]) (by simp; omega)
    · exact ih pool h

/-- Every single manager operation preserves the pool-capacity invariant and
the capacity itself. -/
theorem applyOp_pool_invariant (st : EntityManager) (op : EMOp)
    (h : st.projectilePool.length ≤ st.maxPoolSize) :
    (applyOp st op).projectilePool.length ≤ (applyOp st op).maxPoolSize ∧
    (applyOp st op).maxPoolSize = st.maxPoolSize := by
  cases op with
  | createOp position velocity =>
    simp only [applyOp]
    rcases hp : st.projectilePool.getLast? with - | p0
    · simp only [EntityManager.createProjectile, hp]
      exact ⟨h, by trivial⟩
    · simp only [EntityManager.createProjectile, hp]
      refine ⟨?_, by trivial⟩
      calc st.projectilePool.dropLast.length ≤ st.projectilePool.length := by
            rw [List.length_dropLast]; omega
      _ ≤ st.maxPoolSize := h
  | destroyOp pid =>
    simp only [applyOp]
    rcases hp : st.projectiles.find? (fun p => p.id == pid) with - | p
    · simp only [EntityManager.destroyProjectile, hp]
      exact ⟨h, by trivial⟩
    · simp only [EntityManager.destroyProjectile, hp]
      split_ifs
      · exact ⟨h, by trivial⟩
      · exact ⟨h, by trivial⟩
  | updateOp dt =>
    simp only [applyOp]
    unfold EntityManager.update EntityManager.cleanupInactiveEntities
    exact ⟨cleanupProjList_pool_le _ _ _ h, by trivial⟩
  | cleanupOp =>
    simp only [applyOp]
    unfold EntityManager.cleanupInactiveEntities
    exact ⟨cleanupProjList_pool_le _ _ _ h, by trivial⟩

/-- C5: after any sequence of `createProjectile` / `destroyProjectile` /
`update` / `cleanup` operations on a fresh `EntityManager`, the projectile
pool never exceeds `maxPoolSize` (50); and every projectile recycled from a
non-empty pool by `createProjectile` comes back with `age` reset to 0 and
`isActive` set to `true`. -/
theorem projectile_pool_spec :
    (∀ ops : List EMOp,
      (applyOps (initManager 800 600) ops).projectilePool.length ≤ 50) ∧
    (∀ (st : EntityManager) (position velocity : Vec2),
      st.projectilePool ≠ [] →
      (st.createProjectile position velocity).2.age = 0 ∧
      (st.createProjectile position velocity).2.isActive = true) := by
  constructor
  · have main : ∀ (ops : List EMOp) (st : EntityManager),
        st.projectilePool.length ≤ st.maxPoolSize →
        (applyOps st ops).projectilePool.length ≤ (applyOps st ops).maxPoolSize ∧
        (applyOps st ops).maxPoolSize = st.maxPoolSize := by
      intro ops
      induction ops with
      | nil => intro st h; exact ⟨h, rfl⟩
      | cons op rest ih =>
        intro st h
        have h1 := applyOp_pool_invariant st op h
        have h2 := ih (applyOp st op) h1.1
        exact ⟨h2.1, h2.2.trans h1.2⟩
    intro ops
    have h := main ops (initManager 800 600) (by simp [initManager])
    have hmax : (applyOps (initManager 800 600) ops).maxPoolSize = 50 := h.2
    omega
  · intro st position velocity hne
    rcases hp : st.projectilePool.getLast? with - | p0
    · exact absurd (List.getLast?_eq_none_iff.mp hp) hne
    · simp [EntityManager.createProjectile, hp]

/-- A pool containing one spent projectile, for the C5 witness. -/
def c5PoolState : EntityManager :=
  { initManager 800 600 with
    projectilePool := [{ mkProjectile 1 (0, 0) (0, 0) 800 600 with
      isActive := false, age := 700 }] }

/-- Witness for C5: recycling from the concrete one-element pool resets age
to 0 and reactivates the projectile. -/
theorem projectile_pool_spec_witness :
    (c5PoolState.createProjectile (10, 20) (30, 40)).2.age = 0 ∧
    (c5PoolState.createProjectile (10, 20) (30, 40)).2.isActive = true := by
  exact projectile_pool_spec.2 c5PoolState (10, 20) (30, 40) (by simp [c5PoolState])

/-- A pool holding one spent projectile that was originally fired at the
origin, for the C6 bug demonstration. -/
def c6PoolState : EntityManager :=
  { initManager 800 600 with
    projectilePool := [{ mkProjectile 1 (0, 0) (0, 0) 800 600 with
      isActive := false, age := 500 }] }

/-- C6 failing input: `createProjectile` recycles the pooled projectile at
firing position `(800, 640)` (inside the screen-plus-buffer region), but its
`startPosition` still holds the original `(0, 0)`.  On the next
`update(1 ms)` the recycled projectile is deactivated (distance from the
stale start exceeds `maxDistance` = 1000) while a freshly constructed
projectile fired at the same position and velocity stays active: the
recycled projectile does **not** behave equivalently to a new one, because
the pool reset omits `startPosition`. -/
theorem projectile_recycle_distance_bug :
    (c6PoolState.createProjectile (800, 640) (0, 0)).2.startPosition = (0, 0) ∧
    (c6PoolState.createProjectile (800, 640) (0, 0)).2.position = (800, 640) ∧
    (c6PoolState.createProjectile (800, 640) (0, 0)).2.age = 0 ∧
    (c6PoolState.createProjectile (800, 640) (0, 0)).2.isActive = true ∧
    (Projectile.update (c6PoolState.createProjectile (800, 640) (0, 0)).2 1).isActive
      = false ∧
    (Projectile.update (mkProjectile 2 (800, 640) (0, 0) 800 600) 1).isActive = true := by
  have hrec : (c6PoolState.createProjectile (800, 640) (0, 0)).2 =
      { mkProjectile 1 (0, 0) (0, 0) 800 600 with
        position := (800, 640), velocity := (0, 0), age := 0, isActive := true } := by
    rfl
  refine ⟨by rw [hrec]; try rfl, by rw [hrec]; try rfl, by rw [hrec]; try rfl,
    by rw [hrec]; try rfl, ?_, ?_⟩
  · rw [hrec]
    unfold Projectile.update
    norm_num [mkProjectile, vadd, vmul, distSq]
  · unfold Projectile.update
    norm_num [mkProjectile, vadd, vmul, distSq]

/-! ## Invalid-state no-ops (C9) -/

/-- C9: invalid-state calls are silent no-ops: `pause()` outside the playing
phase or while already paused returns `false` and changes nothing;
`resume()` while not paused returns `false` and changes nothing;
`destroyProjectile` on an already-inactive projectile changes nothing; and
`Ship.createProjectile` before the fire cooldown (`fireRate` = 250 ms for
every ship the game constructs) returns `null` and changes nothing. -/
theorem invalid_state_noops :
    (∀ gs : GameState, (gs.gamePhase ≠ GamePhase.playing ∨ gs.isPaused = true) →
      gs.pause = (gs, false)) ∧
    (∀ gs : GameState, gs.isPaused = false → gs.resume = (gs, false)) ∧
    (∀ (st : EntityManager) (pid : ℕ) (p : Projectile),
      st.projectiles.find? (fun q => q.id == pid) = some p → p.isActive = false →
      st.destroyProjectile pid = st) ∧
    (∀ (s : Ship) (now : ℚ) (dir : Vec2), now - s.lastFireTime < s.fireRate →
      s.createProjectile now dir = (none, s)) := by
  refine ⟨?_, ?_, ?_, ?_⟩
  · intro gs h
    rcases h with h | h <;> simp [GameState.pause, h]
  · intro gs h
    simp [GameState.resume, h]
  · intro st pid p hfind hinact
    simp [EntityManager.destroyProjectile, hfind, hinact]
  · intro s now dir h
    have hcant : s.canFire now = false := by
      simp only [Ship.canFire, decide_eq_false_iff_not, not_le]
      linarith
    simp [Ship.createProjectile, hcant]

/-- Game state in the menu phase, for the C9 witness. -/
def c9MenuGs : GameState := ⟨0, 3, 1, .medium, .menu, false, false, 0, 0, 0, 0, 0, 0, 0⟩

/-- Manager holding one inactive projectile with id 7, for the C9 witness. -/
def c9Manager : EntityManager :=
  { initManager 800 600 with
    projectiles := [{ mkProjectile 7 (1, 2) (3, 4) 800 600 with isActive := false }] }

/-- Witness for C9: all four no-ops at concrete states. -/
theorem invalid_state_noops_witness :
    GameState.pause c9MenuGs = (c9MenuGs, false) ∧
    GameState.resume c9MenuGs = (c9MenuGs, false) ∧
    EntityManager.destroyProjectile c9Manager 7 = c9Manager ∧
    Ship.createProjectile (mkShip (400, 300) 800 600) 100 (1, 0) =
      (none, mkShip (400, 300) 800 600) := by
  refine ⟨?_, ?_, ?_, ?_⟩
  · exact invalid_state_noops.1 c9MenuGs (Or.inl (by simp [c9MenuGs]))
  · exact invalid_state_noops.2.1 c9MenuGs (by simp [c9MenuGs])
  · exact invalid_state_noops.2.2.1 c9Manager 7
      { mkProjectile 7 (1, 2) (3, 4) 800 600 with isActive := false } rfl rfl
  · exact invalid_state_noops.2.2.2 (mkShip (400, 300) 800 600) 100 (1, 0)
      (by norm_num [mkShip])
